import Mathlib

/-!
Verification of the argparse11 example program (`src/example0.cc`) against its
natural-language specification.

`example0.cc` configures a command-line parser with three options:

* `--help` / `-h` : print the composed help text and exit 0;
* `--sum`         : `store_const` of the `std::plus<int>` accumulator, with
                    `set_default` of a max-finding lambda;
* an unnamed positional collector gathering integers (`at_least(1)`).

After parsing, the selected accumulator is retrieved with
`get<accumulation_fn<int>>("sum")` and folded over the collected integers
(`std::accumulate(++begin, end, *begin, accumulator)`), and the result is
printed.

The argparse11 library header itself (`argparse.h`) is not among the given
sources; the parser's behavior is therefore modelled from the specification
(spec.md §3, §4.1, §6, §7), while `main`, the `operator<<` overload for
`std::function<int(int,int)>`, and the concrete option configuration are
translated directly from `src/example0.cc`.
-/

namespace Argparse

/-- The accumulator choice stored for the `--sum` option: `std::plus<int>`
when `--sum` was given (`store_const`), a max-finding lambda otherwise
(`set_default`).  From `src/example0.cc` lines 42-44. -/
inductive AccumChoice where
  | plusF
  | maxF
deriving DecidableEq, Repr

/-- The dynamic type of the callable target stored inside a
`std::function<int(int,int)>` - `std::plus<int>` or some other closure type.
`operator<<` in `src/example0.cc` branches on whether
`target<std::plus<int>>()` is non-null. -/
inductive TargetType where
  | stdPlusInt
  | otherTarget (id : Nat)
deriving DecidableEq, Repr

/-- A `std::function<int(int,int)>` value: the type of its stored callable
target together with its behavior. -/
structure CppFunction where
  target : TargetType
  apply : Int → Int → Int

/-- `accumulation_fn<int>(std::plus<int>())` from `src/example0.cc`. -/
def fnStdPlus : CppFunction := ⟨.stdPlusInt, fun a b => a + b⟩

/-- The max-finding lambda `[](int a, int b) { return std::max(a, b); }`
from `src/example0.cc` line 44. -/
def fnLambdaMax : CppFunction := ⟨.otherTarget 0, fun a b => max a b⟩

/-- The constant lambda `[](int, int) { return int(3); }` from
`src/example0.cc` line 35. -/
def fnLambdaConst3 : CppFunction := ⟨.otherTarget 1, fun _ _ => (3 : Int)⟩

/-- The `operator<<` overload for `std::function<int(int,int)>` defined in
`src/example0.cc` lines 24-28: writes "std::plus" when the stored target is
`std::plus<int>`, and "std::max" otherwise. -/
def showAccumulationFn (f : CppFunction) : String :=
  match f.target with
  | .stdPlusInt => "std::plus"
  | .otherTarget _ => "std::max"

/-- The `std::function` instance denoted by each accumulator choice. -/
def AccumChoice.toCpp : AccumChoice → CppFunction
  | .plusF => fnStdPlus
  | .maxF => fnLambdaMax

/-- Calling the accumulator selected by a choice. -/
def AccumChoice.apply (c : AccumChoice) : Int → Int → Int := c.toCpp.apply

/-- Modelled from the spec: a type-erased stored value (spec.md §3
ParsedResult, §9).  The example program stores integers and
`accumulation_fn<int>` values. -/
inductive Value where
  | int (n : Int)
  | accum (c : AccumChoice)
deriving DecidableEq, Repr

/-- Modelled from the spec: the static type tag remembered for each stored
value, checked at `get<T>` time (spec.md §9). -/
inductive TypeTag where
  | tInt
  | tAccum
deriving DecidableEq, Repr

/-- The type tag of a stored value. -/
def Value.tag : Value → TypeTag
  | .int _ => .tInt
  | .accum _ => .tAccum

/-- Modelled from the spec: the arity/action policy of one option
(spec.md §3): a help flag, a `store_const`+`set_default` flag, or the
positional collector with a minimum count (`at_least(n)`). -/
inductive OptKind where
  | printHelp
  | storeConst (constVal defaultVal : Value)
  | collect (minCount : Nat)
deriving DecidableEq, Repr

/-- Modelled from the spec: one declared option (spec.md §3 OptionSpec). -/
structure OptionSpec where
  longName : Option String
  shortName : Option Char
  doc : String
  kind : OptKind
deriving DecidableEq, Repr

/-- A parser configuration: the declared options in declaration order. -/
abbrev Config := List OptionSpec

/-- The key under which an option's value is recorded. -/
def optName (o : OptionSpec) : String := o.longName.getD ""

/-- The `--help` option registered in `src/example0.cc` line 39. -/
def helpOpt : OptionSpec :=
  { longName := some "help", shortName := some 'h', doc := "", kind := .printHelp }

/-- The `--sum` option registered in `src/example0.cc` lines 42-44:
`store_const(std::plus<int>)` with `set_default(max lambda)`. -/
def sumOpt : OptionSpec :=
  { longName := some "sum", shortName := none,
    doc := "Sum the integers (default: find the max)",
    kind := .storeConst (.accum .plusF) (.accum .maxF) }

/-- The unnamed positional collector registered in `src/example0.cc` line 50:
`collect_into(ints)` with `at_least(1)`. -/
def intsOpt : OptionSpec :=
  { longName := none, shortName := none,
    doc := "an integer for the accumulator", kind := .collect 1 }

/-- The full configuration built by `main` in `src/example0.cc`. -/
def exampleConfig : Config := [helpOpt, sumOpt, intsOpt]

/-- The numeric value of a digit string. -/
def digitsVal (l : List Char) : Nat :=
  l.foldl (fun acc c => acc * 10 + (c.toNat - Char.toNat '0')) 0

/-- Modelled from the spec: conversion of a token to the declared integer
type (spec.md §4.1 step 4; `argparse.h` with the actual converter is not in
the sources).  An optional sign followed by one or more decimal digits is a
valid integer; anything else fails. -/
def parseInt (s : String) : Option Int :=
  match s.data with
  | [] => none
  | '-' :: rest =>
      if rest ≠ [] ∧ rest.all Char.isDigit then some (-(digitsVal rest : Int)) else none
  | '+' :: rest =>
      if rest ≠ [] ∧ rest.all Char.isDigit then some ((digitsVal rest : Int)) else none
  | l => if l.all Char.isDigit then some ((digitsVal l : Int)) else none

/-- First option whose long name is `s`. -/
def findLong (cfg : Config) (s : String) : Option OptionSpec :=
  match cfg with
  | [] => none
  | o :: os => if o.longName = some s then some o else findLong os s

/-- First option whose short name is `c`. -/
def findShort (cfg : Config) (c : Char) : Option OptionSpec :=
  match cfg with
  | [] => none
  | o :: os => if o.shortName = some c then some o else findShort os c

/-- Whether an option is the positional collector. -/
def isCollector (o : OptionSpec) : Bool :=
  match o.kind with
  | .collect _ => true
  | _ => false

/-- The designated positional collector option, if one was registered. -/
def findCollector (cfg : Config) : Option OptionSpec :=
  match cfg with
  | [] => none
  | o :: os => if isCollector o then some o else findCollector os

/-- Modelled from the spec: token classification (spec.md §4.1 step 1).
A token starting with `--` is matched against long names; a token of the
form `-c` is matched against short names; anything else is unmatched and
falls through to the positional collector. -/
def matchToken (cfg : Config) (t : String) : Option OptionSpec :=
  if t.data.take 2 = ['-', '-'] then findLong cfg (String.mk (t.data.drop 2))
  else if t.data.length = 2 ∧ t.data.take 1 = ['-'] then findShort cfg (t.data.getD 1 ' ')
  else none

/-- Lookup of a recorded value by option name (first match). -/
def lookupName (name : String) : List (String × Value) → Option Value
  | [] => none
  | (k, v) :: rest => if k = name then some v else lookupName name rest

/-- The mutable state threaded through the scan: the recorded named values
and the contents of the external `collect_into` container. -/
structure ScanState where
  results : List (String × Value)
  collected : List Int
deriving DecidableEq, Repr

/-- Modelled from the spec: the parse-time error kinds (spec.md §7). -/
inductive ParseError where
  | conversionError (tok : String)
  | missingArgument (opt : OptionSpec) (minCount : Nat)
  | unknownOption (tok : String)
deriving DecidableEq, Repr

/-- Modelled from the spec: the outcome of `parse` - the help/exit-0 path,
a parse error, or success with the recorded values and the collected
integers (spec.md §4.1). -/
inductive ParseOutcome where
  | helpExit
  | error (e : ParseError)
  | ok (results : List (String × Value)) (collected : List Int)
deriving DecidableEq, Repr

/-- Whether an outcome is a successful parse. -/
def ParseOutcome.isOk : ParseOutcome → Bool
  | .ok _ _ => true
  | _ => false

/-- Whether an outcome is a parse error. -/
def ParseOutcome.isErr : ParseOutcome → Bool
  | .error _ => true
  | _ => false

/-- Modelled from the spec: processing of one token (spec.md §4.1 steps
1-5).  A matched help flag terminates with the help outcome; a matched
`store_const` flag records its const value and consumes no further token;
an unmatched token is positional input for the collector: it is converted,
failing with `ConversionError` on invalid input, or with
`UnknownOptionError` when no collector is registered. -/
def step (cfg : Config) (t : String) (st : ScanState) : Except ParseOutcome ScanState :=
  match matchToken cfg t with
  | some o =>
    match o.kind with
    | .printHelp => .error .helpExit
    | .storeConst c _ => .ok { st with results := (optName o, c) :: st.results }
    | .collect _ =>
      match parseInt t with
      | some n => .ok { st with collected := st.collected ++ [n] }
      | none => .error (.error (.conversionError t))
  | none =>
    match findCollector cfg with
    | none => .error (.error (.unknownOption t))
    | some _ =>
      match parseInt t with
      | some n => .ok { st with collected := st.collected ++ [n] }
      | none => .error (.error (.conversionError t))

/-- The left-to-right scan over the argument vector (spec.md §4.1 step 1):
either an early termination outcome or the final scan state. -/
def runTokens (cfg : Config) : List String → ScanState → Except ParseOutcome ScanState
  | [], st => .ok st
  | t :: rest, st =>
    match step cfg t st with
    | .error out => .error out
    | .ok st' => runTokens cfg rest st'

/-- Modelled from the spec: post-scan finalization (spec.md §4.1 step 6):
walk the declared options in order, install defaults for options without a
recorded value, and fail with `MissingArgumentError` when the collector's
minimum count is unmet. -/
def finish (st : ScanState) : List OptionSpec → ParseOutcome
  | [] => .ok st.results st.collected
  | o :: os =>
    match o.kind with
    | .printHelp => finish st os
    | .storeConst _ d =>
      if (lookupName (optName o) st.results).isSome then finish st os
      else finish { st with results := st.results ++ [(optName o, d)] } os
    | .collect m =>
      if st.collected.length < m then .error (.missingArgument o m)
      else finish st os

/-- Modelled from the spec: `parse` (spec.md §4.1), starting from a given
initial contents of the external `collect_into` container. -/
def parseFrom (cfg : Config) (init : List Int) (argv : List String) : ParseOutcome :=
  match runTokens cfg argv ⟨[], init⟩ with
  | .error out => out
  | .ok st => finish st cfg

/-- `parse` on a freshly configured parser: the external container starts
empty, as in `src/example0.cc` where `ints` is default-constructed. -/
def parse (cfg : Config) (argv : List String) : ParseOutcome := parseFrom cfg [] argv

/-- Modelled from the spec: the error kinds of `get<T>` (spec.md §4.1). -/
inductive GetError where
  | typeMismatch
  | notFound
deriving DecidableEq, Repr

/-- Modelled from the spec: `get<T>(name)` (spec.md §4.1): look the name up
in the parsed results; fail with `TypeMismatchError` when the stored type
differs from the requested one, with `NotFoundError` when the name was
never recorded. -/
def getTagged (res : List (String × Value)) (t : TypeTag) (name : String) :
    Except GetError Value :=
  match lookupName name res with
  | none => .error .notFound
  | some v => if v.tag = t then .ok v else .error .typeMismatch

/-- Modelled from the spec: one line of the composed help text, derived
from an option's long/short names and docstring (spec.md §4.1 step 2). -/
def helpLine (o : OptionSpec) : String :=
  String.intercalate " "
    ((o.longName.map (fun s => "--" ++ s)).toList ++
     (o.shortName.map (fun c => "-" ++ String.mk [c])).toList ++ [o.doc])

/-- Modelled from the spec: the composed help text, in declaration order. -/
def helpText (cfg : Config) : String :=
  String.intercalate "\n" (cfg.map helpLine)

/-- How `std::cout` renders a `bool` (no `boolalpha` is set in
`src/example0.cc`). -/
def boolOut (b : Bool) : String := if b then "1" else "0"

/-- Modelled from the spec: the value of
`AP::detail::is_streamable<accumulation_fn<int>>::value` (`argparse.h` with
the trait is not in the sources); `accumulation_fn<int>` is streamable
because `src/example0.cc` defines `operator<<` for it. -/
def is_streamable_accum : Bool := true

/-- The first diagnostic line printed by `main` (`src/example0.cc` line 34):
the streamability of `accumulation_fn<int>` and `std::plus<int>` rendered
through `operator<<`. -/
def line1 : String :=
  "streamable: " ++ boolOut is_streamable_accum ++ ", " ++ showAccumulationFn fnStdPlus

/-- The second diagnostic line printed by `main` (`src/example0.cc` line 35):
the same trait and the constant-3 lambda rendered through `operator<<`. -/
def line2 : String :=
  "streamable: " ++ boolOut is_streamable_accum ++ ", " ++ showAccumulationFn fnLambdaConst3

/-- The observable effect of one whole program run: the lines written to
standard output and the process exit code. -/
structure MainResult where
  stdout : List String
  exitCode : Nat
deriving DecidableEq, Repr

/-- The output and exit code produced after the two diagnostic lines:
help text and exit 0 on the help path; exit 1 on a parse error (spec.md §6:
non-zero, conventionally 1); otherwise retrieve the accumulator with
`get<accumulation_fn<int>>("sum")` and print the fold
`std::accumulate(++begin, end, *begin, accumulator)` over the collected
integers (`src/example0.cc` lines 53-67). -/
def mainTail (argv : List String) : List String × Nat :=
  match parse exampleConfig argv with
  | .helpExit => ([helpText exampleConfig], 0)
  | .error _ => ([], 1)
  | .ok res coll =>
    match getTagged res .tAccum "sum" with
    | .ok (.accum c) =>
      match coll with
      | [] => ([], 1)
      | h :: t => ([toString (t.foldl c.apply h)], 0)
    | _ => ([], 1)

/-- `main` from `src/example0.cc`: print the two diagnostic lines, then
parse the argument vector and either print help, fail, or print the fold
result. -/
def mainRun (argv : List String) : MainResult :=
  ⟨[line1, line2] ++ (mainTail argv).1, (mainTail argv).2⟩

/-- A parser instance as configured by a caller: its declared options and
the current contents of the external `collect_into` container.  A freshly
configured (re-constructed or copied) instance has an empty container. -/
structure ParserRun where
  config : Config
  container : List Int
deriving DecidableEq, Repr

/-- Running `parse` on a parser instance. -/
def ParserRun.run (p : ParserRun) (argv : List String) : ParseOutcome :=
  parseFrom p.config p.container argv

/-- The result entry recorded by a matched `--sum` token. -/
def sumConstEntry : String × Value := ("sum", Value.accum .plusF)

/-- The number of `--sum` tokens in an argument vector. -/
def countSum : List String → Nat
  | [] => 0
  | t :: rest => (if t = "--sum" then 1 else 0) + countSum rest

/-! ### Basic facts about the example configuration -/

theorem findCollector_example : findCollector exampleConfig = some intsOpt := rfl

theorem parseInt_sum_none : parseInt "--sum" = none := rfl

theorem matchToken_sum : matchToken exampleConfig "--sum" = some sumOpt := rfl

theorem matchToken_help : matchToken exampleConfig "--help" = some helpOpt := rfl

theorem matchToken_hShort : matchToken exampleConfig "-h" = some helpOpt := rfl

theorem findLong_example_inv {s : String} {o : OptionSpec}
    (h : findLong exampleConfig s = some o) :
    (o = helpOpt ∧ s = "help") ∨ (o = sumOpt ∧ s = "sum") := by
  unfold exampleConfig at h
  simp only [findLong] at h
  split_ifs at h with h1 h2 h3
  · exact Or.inl ⟨(Option.some.inj h).symm, (Option.some.inj h1).symm⟩
  · exact Or.inr ⟨(Option.some.inj h).symm, (Option.some.inj h2).symm⟩
  · exact absurd h3 (by simp [intsOpt])

theorem findShort_example_inv {c : Char} {o : OptionSpec}
    (h : findShort exampleConfig c = some o) :
    o = helpOpt ∧ c = 'h' := by
  unfold exampleConfig at h
  simp only [findShort] at h
  split_ifs at h with h1 h2 h3
  · exact ⟨(Option.some.inj h).symm, (Option.some.inj h1).symm⟩
  · exact absurd h2 (by simp [sumOpt])
  · exact absurd h3 (by simp [intsOpt])

theorem matchToken_example_inv {t : String} {o : OptionSpec}
    (h : matchToken exampleConfig t = some o) :
    (o = helpOpt ∧ (t = "--help" ∨ t = "-h")) ∨ (o = sumOpt ∧ t = "--sum") := by
  unfold matchToken at h
  split_ifs at h with h1 h2
  · rcases findLong_example_inv h with ⟨ho, hs⟩ | ⟨ho, hs⟩
    · refine Or.inl ⟨ho, Or.inl ?_⟩
      have hd : t.data.drop 2 = "help".data := congrArg String.data hs
      have ht : t.data = "--help".data := by
        have hta := List.take_append_drop 2 t.data
        rw [h1, hd] at hta
        exact hta.symm
      exact String.ext ht
    · refine Or.inr ⟨ho, ?_⟩
      have hd : t.data.drop 2 = "sum".data := congrArg String.data hs
      have ht : t.data = "--sum".data := by
        have hta := List.take_append_drop 2 t.data
        rw [h1, hd] at hta
        exact hta.symm
      exact String.ext ht
  · obtain ⟨hlen, htake⟩ := h2
    obtain ⟨ho, hc⟩ := findShort_example_inv h
    refine Or.inl ⟨ho, Or.inr ?_⟩
    obtain ⟨a, b, hab⟩ := List.length_eq_two.mp hlen
    rw [hab] at htake hc
    simp only [List.take] at htake
    have ha : a = '-' := by simpa using htake
    have hb : b = 'h' := by simpa [List.getD] using hc
    have ht : t.data = "-h".data := by rw [hab, ha, hb]
    exact String.ext ht

theorem matchToken_none_of_int {t : String} (h : (parseInt t).isSome = true) :
    matchToken exampleConfig t = none := by
  cases hm : matchToken exampleConfig t with
  | none => rfl
  | some o =>
    exfalso
    rcases matchToken_example_inv hm with ⟨-, ht | ht⟩ | ⟨-, ht⟩ <;>
      subst ht <;> exact absurd h (by decide)

/-! ### Characterization of single scan steps on the example configuration -/

theorem step_sum (st : ScanState) :
    step exampleConfig "--sum" st = .ok { st with results := sumConstEntry :: st.results } := rfl

theorem step_helpLong (st : ScanState) :
    step exampleConfig "--help" st = .error .helpExit := rfl

theorem step_helpShort (st : ScanState) :
    step exampleConfig "-h" st = .error .helpExit := rfl

theorem step_int {t : String} {n : Int} (hm : matchToken exampleConfig t = none)
    (hn : parseInt t = some n) (st : ScanState) :
    step exampleConfig t st = .ok { st with collected := st.collected ++ [n] } := by
  unfold step
  rw [hm, findCollector_example, hn]

theorem step_conv {t : String} (hm : matchToken exampleConfig t = none)
    (hn : parseInt t = none) (st : ScanState) :
    step exampleConfig t st = .error (.error (.conversionError t)) := by
  unfold step
  rw [hm, findCollector_example, hn]

theorem step_cases (t : String) (st : ScanState) :
    (t = "--sum" ∧ step exampleConfig t st = .ok { st with results := sumConstEntry :: st.results }) ∨
    ((t = "--help" ∨ t = "-h") ∧ step exampleConfig t st = .error .helpExit) ∨
    (∃ n, matchToken exampleConfig t = none ∧ parseInt t = some n ∧
      step exampleConfig t st = .ok { st with collected := st.collected ++ [n] }) ∨
    (matchToken exampleConfig t = none ∧ parseInt t = none ∧
      step exampleConfig t st = .error (.error (.conversionError t))) := by
  cases hm : matchToken exampleConfig t with
  | some o =>
    rcases matchToken_example_inv hm with ⟨ho, ht⟩ | ⟨ho, ht⟩
    · subst ho
      rcases ht with ht | ht <;> subst ht
      · exact Or.inr (Or.inl ⟨Or.inl rfl, step_helpLong st⟩)
      · exact Or.inr (Or.inl ⟨Or.inr rfl, step_helpShort st⟩)
    · subst ho ht
      exact Or.inl ⟨rfl, step_sum st⟩
  | none =>
    cases hn : parseInt t with
    | some n => exact Or.inr (Or.inr (Or.inl ⟨n, rfl, rfl, step_int hm hn st⟩))
    | none => exact Or.inr (Or.inr (Or.inr ⟨rfl, rfl, step_conv hm hn st⟩))

/-! ### The scan over whole argument vectors -/

theorem runTokens_append (cfg : Config) (a b : List String) :
    ∀ st, runTokens cfg (a ++ b) st =
      match runTokens cfg a st with
      | .error out => .error out
      | .ok st' => runTokens cfg b st' := by
  induction a with
  | nil => intro st; simp [runTokens]
  | cons t atl ih =>
    intro st
    rw [List.cons_append]
    cases hstep : step cfg t st with
    | error out => simp [runTokens, hstep]
    | ok st1 => simp [runTokens, hstep, ih]

theorem step_error_not_ok {cfg : Config} {t : String} {st : ScanState} {out : ParseOutcome}
    (h : step cfg t st = .error out) : out.isOk = false := by
  unfold step at h
  split at h
  · split at h
    · cases h; rfl
    · cases h
    · split at h
      · cases h
      · cases h; rfl
  · split at h
    · cases h; rfl
    · split at h
      · cases h
      · cases h; rfl

theorem runTokens_error_not_ok {cfg : Config} {out : ParseOutcome} :
    ∀ (argv : List String) (st : ScanState),
      runTokens cfg argv st = .error out → out.isOk = false := by
  intro argv
  induction argv with
  | nil => intro st h; cases h
  | cons t rest ih =>
    intro st h
    rw [runTokens] at h
    cases hstep : step cfg t st with
    | error o => rw [hstep] at h; cases h; exact step_error_not_ok hstep
    | ok st1 => rw [hstep] at h; exact ih st1 h

theorem runTokens_mixed :
    ∀ (argv : List String) (st : ScanState),
      (∀ t ∈ argv, t = "--sum" ∨ (parseInt t).isSome = true) →
      runTokens exampleConfig argv st =
        .ok ⟨List.replicate (countSum argv) sumConstEntry ++ st.results,
             st.collected ++ argv.filterMap parseInt⟩ := by
  intro argv
  induction argv with
  | nil => intro st h; simp [runTokens, countSum]
  | cons t rest ih =>
    intro st h
    rcases h t (List.mem_cons_self t rest) with ht | ht
    · subst ht
      simp only [runTokens, step_sum]
      rw [ih _ (fun u hu => h u (List.mem_cons_of_mem _ hu))]
      simp [countSum, List.filterMap_cons_none parseInt_sum_none,
        Nat.add_comm, List.replicate_succ', List.append_assoc]
    · obtain ⟨n, hn⟩ := Option.isSome_iff_exists.mp ht
      have hm := matchToken_none_of_int ht
      have htne : t ≠ "--sum" := by
        intro he; rw [he, parseInt_sum_none] at hn; cases hn
      simp only [runTokens, step_int hm hn]
      rw [ih _ (fun u hu => h u (List.mem_cons_of_mem _ hu))]
      simp [countSum, htne, List.filterMap_cons_some hn, List.append_assoc]

theorem runTokens_ok_inv :
    ∀ (argv : List String) (st st' : ScanState),
      runTokens exampleConfig argv st = .ok st' →
      st'.results = List.replicate (countSum argv) sumConstEntry ++ st.results ∧
      st'.collected = st.collected ++ argv.filterMap parseInt := by
  intro argv
  induction argv with
  | nil =>
    intro st st' h
    cases h
    simp [countSum]
  | cons t rest ih =>
    intro st st' h
    rw [runTokens] at h
    rcases step_cases t st with ⟨ht, hs⟩ | ⟨ht, hs⟩ | ⟨n, hm, hn, hs⟩ | ⟨hm, hn, hs⟩
    · rw [hs] at h
      obtain ⟨h1, h2⟩ := ih _ _ h
      subst ht
      constructor
      · rw [h1]
        simp [countSum, Nat.add_comm, List.replicate_succ', List.append_assoc]
      · rw [h2]
        simp [List.filterMap_cons_none parseInt_sum_none]
    · rw [hs] at h; cases h
    · rw [hs] at h
      obtain ⟨h1, h2⟩ := ih _ _ h
      have htne : t ≠ "--sum" := by
        intro he; rw [he, parseInt_sum_none] at hn; cases hn
      constructor
      · rw [h1]; simp [countSum, htne]
      · rw [h2]; simp [List.filterMap_cons_some hn, List.append_assoc]
    · rw [hs] at h; cases h

/-! ### Post-scan finalization on the example configuration -/

theorem finish_example (st : ScanState) :
    finish st exampleConfig =
      if st.collected.length < 1 then .error (.missingArgument intsOpt 1)
      else .ok (if (lookupName "sum" st.results).isSome then st.results
                else st.results ++ [("sum", Value.accum .maxF)]) st.collected := by
  by_cases hs : (lookupName "sum" st.results).isSome <;>
    by_cases hc : st.collected.length < 1 <;>
      simp [finish, exampleConfig, helpOpt, sumOpt, intsOpt, optName, hs, hc]

theorem lookup_replicate (k : Nat) :
    lookupName "sum" (List.replicate k sumConstEntry) =
      if k = 0 then none else some (Value.accum .plusF) := by
  cases k with
  | zero => rfl
  | succ m => simp [List.replicate_succ, lookupName, sumConstEntry]

theorem countSum_eq_zero_iff (argv : List String) :
    countSum argv = 0 ↔ "--sum" ∉ argv := by
  induction argv with
  | nil => simp [countSum]
  | cons t rest ih =>
    by_cases ht : t = "--sum"
    · subst ht; simp [countSum]
    · simp [countSum, ht, ih, Ne.symm ht]

/-! ### Whole-parse characterizations on the example configuration -/

theorem parseFrom_ok {cfg : Config} {init : List Int} {argv : List String} {st : ScanState}
    (h : runTokens cfg argv ⟨[], init⟩ = .ok st) :
    parseFrom cfg init argv = finish st cfg := by
  simp only [parseFrom, h]

theorem parseFrom_error {cfg : Config} {init : List Int} {argv : List String}
    {out : ParseOutcome} (h : runTokens cfg argv ⟨[], init⟩ = .error out) :
    parseFrom cfg init argv = out := by
  simp only [parseFrom, h]

theorem parse_mixed (argv : List String)
    (h : ∀ t ∈ argv, t = "--sum" ∨ (parseInt t).isSome = true) :
    parse exampleConfig argv =
      if (argv.filterMap parseInt).length < 1 then .error (.missingArgument intsOpt 1)
      else .ok (if countSum argv = 0
                then [("sum", Value.accum .maxF)]
                else List.replicate (countSum argv) sumConstEntry)
              (argv.filterMap parseInt) := by
  unfold parse
  rw [parseFrom_ok (runTokens_mixed argv ⟨[], []⟩ h), finish_example]
  simp only [List.append_nil, List.nil_append, lookup_replicate]
  by_cases hk : countSum argv = 0 <;> simp [hk]

theorem parse_allInts (argv : List String) (h1 : argv ≠ [])
    (h2 : ∀ t ∈ argv, (parseInt t).isSome = true) :
    parse exampleConfig argv = .ok [("sum", Value.accum .maxF)] (argv.filterMap parseInt) := by
  have hmix : ∀ t ∈ argv, t = "--sum" ∨ (parseInt t).isSome = true :=
    fun t ht => Or.inr (h2 t ht)
  have hnotin : "--sum" ∉ argv := by
    intro hm
    have := h2 _ hm
    rw [parseInt_sum_none] at this
    cases this
  have hk : countSum argv = 0 := (countSum_eq_zero_iff argv).mpr hnotin
  cases argv with
  | nil => exact absurd rfl h1
  | cons a rest =>
    obtain ⟨n, hn⟩ := Option.isSome_iff_exists.mp (h2 a (List.mem_cons_self a rest))
    rw [parse_mixed _ hmix, hk]
    simp [List.filterMap_cons_some hn]

theorem parse_sumInts (argv : List String)
    (hmix : ∀ t ∈ argv, t = "--sum" ∨ (parseInt t).isSome = true)
    (hs : "--sum" ∈ argv) (hone : ∃ t ∈ argv, (parseInt t).isSome = true) :
    parse exampleConfig argv =
      .ok (List.replicate (countSum argv) sumConstEntry) (argv.filterMap parseInt) ∧
    countSum argv ≠ 0 ∧ argv.filterMap parseInt ≠ [] := by
  have hk : countSum argv ≠ 0 := fun h0 => (countSum_eq_zero_iff argv).mp h0 hs
  obtain ⟨t, ht, hsome⟩ := hone
  obtain ⟨n, hn⟩ := Option.isSome_iff_exists.mp hsome
  have hmem : n ∈ argv.filterMap parseInt := List.mem_filterMap.mpr ⟨t, ht, hn⟩
  have hne : argv.filterMap parseInt ≠ [] := List.ne_nil_of_mem hmem
  refine ⟨?_, hk, hne⟩
  rw [parse_mixed _ hmix]
  have hlen : ¬ (argv.filterMap parseInt).length < 1 := by
    simpa [Nat.lt_one_iff, List.length_eq_zero] using hne
  simp [hlen, hk]

theorem parse_ok_inv {argv : List String} {res : List (String × Value)} {coll : List Int}
    (h : parse exampleConfig argv = .ok res coll) :
    res = (if countSum argv = 0 then [("sum", Value.accum .maxF)]
           else List.replicate (countSum argv) sumConstEntry) ∧
    coll = argv.filterMap parseInt ∧ 1 ≤ coll.length := by
  unfold parse at h
  cases hr : runTokens exampleConfig argv ⟨[], []⟩ with
  | error out =>
    rw [parseFrom_error hr] at h
    have hno := runTokens_error_not_ok argv _ hr
    rw [h] at hno
    cases hno
  | ok st =>
    rw [parseFrom_ok hr] at h
    obtain ⟨h1, h2⟩ := runTokens_ok_inv argv _ _ hr
    simp only [List.append_nil, List.nil_append] at h1 h2
    rw [finish_example] at h
    split_ifs at h with hc hlook
    · rw [ParseOutcome.ok.injEq] at h
      obtain ⟨hres, hcoll⟩ := h
      subst hcoll
      rw [h2] at hc ⊢
      refine ⟨?_, rfl, Nat.not_lt.mp hc⟩
      rw [h1, lookup_replicate] at hlook
      have hk : countSum argv ≠ 0 := by
        intro h0
        rw [h0] at hlook
        simp at hlook
      rw [← hres, h1]
      simp [hk]
    · rw [ParseOutcome.ok.injEq] at h
      obtain ⟨hres, hcoll⟩ := h
      subst hcoll
      rw [h2] at hc ⊢
      refine ⟨?_, rfl, Nat.not_lt.mp hc⟩
      rw [h1, lookup_replicate] at hlook
      have hk : countSum argv = 0 := by
        by_contra h0
        simp [h0] at hlook
      rw [← hres, h1, hk]
      simp

/-! ### Folding lemmas -/

theorem foldl_max_mem (tl : List Int) : ∀ h : Int, tl.foldl max h ∈ h :: tl := by
  induction tl with
  | nil => intro h; simp [List.foldl]
  | cons a t ih =>
    intro h
    rw [List.foldl_cons]
    rcases List.mem_cons.mp (ih (max h a)) with hm | hm
    · rcases max_choice h a with hc | hc
      · exact List.mem_cons.mpr (Or.inl (hm.trans hc))
      · exact List.mem_cons.mpr (Or.inr (List.mem_cons.mpr (Or.inl (hm.trans hc))))
    · exact List.mem_cons.mpr (Or.inr (List.mem_cons.mpr (Or.inr hm)))

theorem foldl_max_le (tl : List Int) : ∀ h x : Int, x ∈ h :: tl → x ≤ tl.foldl max h := by
  induction tl with
  | nil =>
    intro h x hx
    rw [List.mem_singleton] at hx
    simp [hx, List.foldl]
  | cons a t ih =>
    intro h x hx
    rw [List.foldl_cons]
    rcases List.mem_cons.mp hx with rfl | hx1
    · exact le_trans (le_max_left x a) (ih (max x a) _ (List.mem_cons_self ..))
    · rcases List.mem_cons.mp hx1 with rfl | hx2
      · exact le_trans (le_max_right h x) (ih (max h x) _ (List.mem_cons_self ..))
      · exact ih (max h a) x (List.mem_cons_of_mem _ hx2)

theorem foldl_add_eq_sum (tl : List Int) : ∀ h : Int, tl.foldl (· + ·) h = h + tl.sum := by
  induction tl with
  | nil => intro h; simp
  | cons a t ih =>
    intro h
    rw [List.foldl_cons, ih, List.sum_cons]
    ring

theorem maxF_apply : AccumChoice.apply .maxF = (max : Int → Int → Int) := rfl

theorem plusF_apply : AccumChoice.apply .plusF = ((· + ·) : Int → Int → Int) := rfl

/-! ### Retrieval lemmas -/

theorem getTagged_ok_tag {res : List (String × Value)} {t : TypeTag} {name : String}
    {v : Value} (h : getTagged res t name = .ok v) : v.tag = t := by
  unfold getTagged at h
  split at h
  · cases h
  · split at h
    · cases h; assumption
    · cases h

theorem getTagged_replicate {k : Nat} (hk : k ≠ 0) :
    getTagged (List.replicate k sumConstEntry) .tAccum "sum" = .ok (Value.accum .plusF) := by
  unfold getTagged
  rw [lookup_replicate]
  simp [hk, Value.tag]

/-! ### Main-program reductions -/

theorem mainTail_ok {argv : List String} {res : List (String × Value)} {hd : Int}
    {tl : List Int} {c : AccumChoice}
    (hp : parse exampleConfig argv = .ok res (hd :: tl))
    (hg : getTagged res .tAccum "sum" = .ok (Value.accum c)) :
    mainTail argv = ([toString (tl.foldl (AccumChoice.apply c) hd)], 0) := by
  unfold mainTail
  simp only [hp, hg]

theorem mainTail_help {argv : List String}
    (hp : parse exampleConfig argv = .helpExit) :
    mainTail argv = ([helpText exampleConfig], 0) := by
  unfold mainTail
  simp only [hp]

theorem mainTail_error {argv : List String} {e : ParseError}
    (hp : parse exampleConfig argv = .error e) :
    mainTail argv = ([], 1) := by
  unfold mainTail
  simp only [hp]

theorem getTagged_replicate_int {k : Nat} (hk : k ≠ 0) :
    getTagged (List.replicate k sumConstEntry) .tInt "sum" = .error .typeMismatch := by
  unfold getTagged
  rw [lookup_replicate]
  simp [hk, Value.tag]

/-! ### The claims -/

/-- Claim C3 (confirmed): whenever the token `--help` or `-h` is matched
during the left-to-right scan — that is, the tokens before it are all
consumed without an early termination — `parse` ends on the help path
immediately, regardless of the validity of the remaining tokens; the
program emits the composed help text to standard output and terminates
with exit code 0, bypassing the remainder of parsing. -/
theorem example0_C3 (pre rest : List String) (t : String) (st : ScanState)
    (ht : t = "--help" ∨ t = "-h")
    (hpre : runTokens exampleConfig pre ⟨[], []⟩ = .ok st) :
    parse exampleConfig (pre ++ t :: rest) = .helpExit ∧
    (mainRun (pre ++ t :: rest)).stdout = [line1, line2, helpText exampleConfig] ∧
    (mainRun (pre ++ t :: rest)).exitCode = 0 := by
  have hrun : runTokens exampleConfig (pre ++ t :: rest) ⟨[], []⟩ = .error .helpExit := by
    rw [runTokens_append]
    simp only [hpre]
    rcases ht with ht | ht <;> subst ht
    · simp only [runTokens, step_helpLong]
    · simp only [runTokens, step_helpShort]
  have hparse : parse exampleConfig (pre ++ t :: rest) = .helpExit := by
    unfold parse
    rw [parseFrom_error hrun]
  refine ⟨hparse, ?_, ?_⟩ <;> simp [mainRun, mainTail_help hparse]

/-- Witness for C3: after the valid integer token "3", the token `-h` is
matched and help wins even though the invalid token "abc" follows. -/
theorem example0_C3_witness :
    parse exampleConfig (["3"] ++ "-h" :: ["abc"]) = .helpExit ∧
    (mainRun (["3"] ++ "-h" :: ["abc"])).stdout = [line1, line2, helpText exampleConfig] ∧
    (mainRun (["3"] ++ "-h" :: ["abc"])).exitCode = 0 :=
  example0_C3 ["3"] ["abc"] "-h" ⟨[], [3]⟩ (Or.inr rfl) rfl

/-- Claim C4 (confirmed): with no positional integer tokens (and no help
flag), `parse` fails with `MissingArgumentError` naming the unmet
positional collector option and the minimum count 1, and the whole
invocation exits with a non-zero exit code, printing no fold result. -/
theorem example0_C4 :
    parse exampleConfig [] = .error (.missingArgument intsOpt 1) ∧
    intsOpt.kind = .collect 1 ∧ isCollector intsOpt = true ∧
    (mainRun []).stdout = [line1, line2] ∧ (mainRun []).exitCode ≠ 0 := by decide

/-- Claim C5 (corrected): a positional token `bad` that is not a valid
integer causes `parse` to fail with `ConversionError` carrying that
offending token, provided the scan actually reaches it — the tokens
before `bad` are consumed without an early termination (in particular no
help token precedes it); the invocation then exits non-zero. -/
theorem example0_C5 (pre rest : List String) (bad : String) (st : ScanState)
    (hpre : runTokens exampleConfig pre ⟨[], []⟩ = .ok st)
    (hm : matchToken exampleConfig bad = none)
    (hb : parseInt bad = none) :
    parse exampleConfig (pre ++ bad :: rest) = .error (.conversionError bad) ∧
    (mainRun (pre ++ bad :: rest)).exitCode ≠ 0 := by
  have hrun : runTokens exampleConfig (pre ++ bad :: rest) ⟨[], []⟩ =
      .error (.error (.conversionError bad)) := by
    rw [runTokens_append]
    simp only [hpre]
    simp only [runTokens, step_conv hm hb st]
  have hparse : parse exampleConfig (pre ++ bad :: rest) = .error (.conversionError bad) := by
    unfold parse
    rw [parseFrom_error hrun]
  refine ⟨hparse, ?_⟩
  simp [mainRun, mainTail_error hparse]

/-- Witness for C5: `parse(["abc"])` fails with `ConversionError` on
"abc", matching the spec's own example. -/
theorem example0_C5_witness :
    parse exampleConfig ([] ++ "abc" :: []) = .error (.conversionError "abc") ∧
    (mainRun ([] ++ "abc" :: [])).exitCode ≠ 0 :=
  example0_C5 [] [] "abc" ⟨[], []⟩ rfl (by decide) (by decide)

/-- Counterexample to C5 as stated: `["--help", "abc"]` contains the
positional non-integer token "abc", yet `parse` does not fail with
`ConversionError` — the help token is matched first and the parse ends on
the help path with no error at all. -/
theorem example0_C5_cex :
    matchToken exampleConfig "abc" = none ∧ parseInt "abc" = none ∧
    "abc" ∈ (["--help", "abc"] : List String) ∧
    parse exampleConfig ["--help", "abc"] = .helpExit ∧
    (parse exampleConfig ["--help", "abc"]).isErr = false := by decide

/-- Claim C8 (confirmed): parsing is a deterministic function of the
configuration and the argument vector: two freshly configured parser
instances (empty external container) with identical configurations
produce identical outcomes on identical argv. -/
theorem example0_C8 (p q : ParserRun) (argv : List String)
    (hc : p.config = q.config) (hp : p.container = []) (hq : q.container = []) :
    ParserRun.run p argv = ParserRun.run q argv := by
  unfold ParserRun.run
  rw [hc, hp, hq]

/-- Witness for C8: two freshly configured instances of the example
parser agree on `["--sum", "2"]`. -/
theorem example0_C8_witness :
    ParserRun.run ⟨exampleConfig, []⟩ ["--sum", "2"] =
      ParserRun.run ⟨exampleConfig, []⟩ ["--sum", "2"] :=
  example0_C8 ⟨exampleConfig, []⟩ ⟨exampleConfig, []⟩ ["--sum", "2"] rfl rfl rfl

/-- Claim C9 (confirmed): for every argument vector — including help and
failing ones — the program writes the two diagnostic lines, each beginning
with "streamable: ", to standard output before any parsing output, so help
text and error outcomes are always preceded by these two lines. -/
theorem example0_C9 (argv : List String) :
    ∃ rest : List String,
      (mainRun argv).stdout = line1 :: line2 :: rest ∧
      line1 = "streamable: " ++ "1, std::plus" ∧
      line2 = "streamable: " ++ "1, std::max" :=
  ⟨(mainTail argv).1, rfl, rfl, rfl⟩

/-- Claim C10 (confirmed): the stream-insertion operator for
`std::function<int(int,int)>` writes "std::plus" exactly when the stored
callable target is `std::plus<int>`, and writes "std::max" for every other
callable — including the constant-3 lambda, which computes neither a sum
nor a maximum. -/
theorem example0_C10 (f : CppFunction) :
    (showAccumulationFn f = "std::plus" ↔ f.target = .stdPlusInt) ∧
    (showAccumulationFn f = "std::max" ↔ f.target ≠ .stdPlusInt) ∧
    showAccumulationFn fnLambdaConst3 = "std::max" ∧
    fnLambdaConst3.apply 1 2 = 3 := by
  obtain ⟨tg, ap⟩ := f
  cases tg with
  | stdPlusInt =>
    refine ⟨⟨fun _ => rfl, fun _ => rfl⟩, ?_, rfl, rfl⟩
    constructor
    · intro h; exact absurd (show ("std::plus" : String) = "std::max" from h) (by decide)
    · intro h; exact absurd rfl h
  | otherTarget id =>
    refine ⟨?_, ?_, rfl, rfl⟩
    · constructor
      · intro h; exact absurd (show ("std::max" : String) = "std::plus" from h) (by decide)
      · intro h; exact absurd h (by simp)
    · exact ⟨fun _ => by simp, fun _ => rfl⟩

/-- Claim C1 (amended): for every argument vector all of whose tokens are
valid integer tokens, with at least one token (such a vector contains
neither `--sum` nor a help flag), `parse` succeeds collecting exactly
those integers, the accumulator retrieved as
`get<accumulation_fn<int>>("sum")` is the default max-finding one, folding
the collected integers with it yields their maximum (an element of the
list that bounds every element), and the program prints that maximum and
exits 0. -/
theorem example0_C1 (argv : List String) (h1 : argv ≠ [])
    (h2 : ∀ t ∈ argv, (parseInt t).isSome = true) :
    ∃ (res : List (String × Value)) (hd : Int) (tl : List Int),
      parse exampleConfig argv = .ok res (hd :: tl) ∧
      hd :: tl = argv.filterMap parseInt ∧
      getTagged res .tAccum "sum" = .ok (Value.accum .maxF) ∧
      tl.foldl (AccumChoice.apply .maxF) hd ∈ hd :: tl ∧
      (∀ x ∈ hd :: tl, x ≤ tl.foldl (AccumChoice.apply .maxF) hd) ∧
      (mainRun argv).stdout =
        [line1, line2, toString (tl.foldl (AccumChoice.apply .maxF) hd)] ∧
      (mainRun argv).exitCode = 0 := by
  have hp := parse_allInts argv h1 h2
  cases hfm : argv.filterMap parseInt with
  | nil =>
    exfalso
    cases argv with
    | nil => exact h1 rfl
    | cons a r =>
      obtain ⟨n, hn⟩ := Option.isSome_iff_exists.mp (h2 a (List.mem_cons_self a r))
      rw [List.filterMap_cons_some hn] at hfm
      cases hfm
  | cons hd tl =>
    rw [hfm] at hp
    have hg : getTagged [("sum", Value.accum .maxF)] .tAccum "sum" =
        .ok (Value.accum .maxF) := rfl
    have hmt := mainTail_ok hp hg
    refine ⟨[("sum", Value.accum .maxF)], hd, tl, hp, rfl, hg, ?_, ?_, ?_, ?_⟩
    · rw [maxF_apply]
      exact foldl_max_mem tl hd
    · rw [maxF_apply]
      exact fun x hx => foldl_max_le tl hd x hx
    · simp [mainRun, hmt]
    · simp [mainRun, hmt]

/-- Witness for C1 (amended) at `["2", "7", "5"]`. -/
theorem example0_C1_witness :
    ∃ (res : List (String × Value)) (hd : Int) (tl : List Int),
      parse exampleConfig ["2", "7", "5"] = .ok res (hd :: tl) ∧
      hd :: tl = (["2", "7", "5"] : List String).filterMap parseInt ∧
      getTagged res .tAccum "sum" = .ok (Value.accum .maxF) ∧
      tl.foldl (AccumChoice.apply .maxF) hd ∈ hd :: tl ∧
      (∀ x ∈ hd :: tl, x ≤ tl.foldl (AccumChoice.apply .maxF) hd) ∧
      (mainRun ["2", "7", "5"]).stdout =
        [line1, line2, toString (tl.foldl (AccumChoice.apply .maxF) hd)] ∧
      (mainRun ["2", "7", "5"]).exitCode = 0 :=
  example0_C1 ["2", "7", "5"] (by decide) (by decide)

/-- Counterexample to C1 as stated: `["--help", "7"]` contains the valid
integer token "7" and does not contain `--sum`, yet `parse` does not
produce a result to fold — it ends on the help path — and the program
prints the help text rather than the maximum "7". -/
theorem example0_C1_cex :
    (parseInt "7").isSome = true ∧
    "--sum" ∉ (["--help", "7"] : List String) ∧
    parse exampleConfig ["--help", "7"] = .helpExit ∧
    (parse exampleConfig ["--help", "7"]).isOk = false ∧
    toString (7 : Int) ∉ (mainRun ["--help", "7"]).stdout := by decide

/-- Claim C2 (amended): for every argument vector whose tokens are each
either `--sum` or a valid integer token, containing `--sum` and at least
one integer token, `parse` succeeds collecting exactly the integer
tokens, the accumulator retrieved as `get<accumulation_fn<int>>("sum")`
is `std::plus<int>`, folding the collected integers with it yields their
arithmetic sum, and the program prints that sum and exits 0. -/
theorem example0_C2 (argv : List String)
    (hmix : ∀ t ∈ argv, t = "--sum" ∨ (parseInt t).isSome = true)
    (hs : "--sum" ∈ argv) (hone : ∃ t ∈ argv, (parseInt t).isSome = true) :
    ∃ (res : List (String × Value)) (hd : Int) (tl : List Int),
      parse exampleConfig argv = .ok res (hd :: tl) ∧
      hd :: tl = argv.filterMap parseInt ∧
      getTagged res .tAccum "sum" = .ok (Value.accum .plusF) ∧
      tl.foldl (AccumChoice.apply .plusF) hd = (hd :: tl).sum ∧
      (mainRun argv).stdout = [line1, line2, toString ((hd :: tl).sum)] ∧
      (mainRun argv).exitCode = 0 := by
  obtain ⟨hp, hk, hne⟩ := parse_sumInts argv hmix hs hone
  cases hfm : argv.filterMap parseInt with
  | nil => exact absurd hfm hne
  | cons hd tl =>
    rw [hfm] at hp
    have hg := getTagged_replicate hk
    have hfold : tl.foldl (AccumChoice.apply .plusF) hd = (hd :: tl).sum := by
      rw [plusF_apply, foldl_add_eq_sum, List.sum_cons]
    have hmt := mainTail_ok hp hg
    rw [hfold] at hmt
    refine ⟨_, hd, tl, hp, rfl, hg, hfold, ?_, ?_⟩ <;> simp [mainRun, hmt]

/-- Witness for C2 (amended) at `["--sum", "2", "7"]`. -/
theorem example0_C2_witness :
    ∃ (res : List (String × Value)) (hd : Int) (tl : List Int),
      parse exampleConfig ["--sum", "2", "7"] = .ok res (hd :: tl) ∧
      hd :: tl = (["--sum", "2", "7"] : List String).filterMap parseInt ∧
      getTagged res .tAccum "sum" = .ok (Value.accum .plusF) ∧
      tl.foldl (AccumChoice.apply .plusF) hd = (hd :: tl).sum ∧
      (mainRun ["--sum", "2", "7"]).stdout = [line1, line2, toString ((hd :: tl).sum)] ∧
      (mainRun ["--sum", "2", "7"]).exitCode = 0 :=
  example0_C2 ["--sum", "2", "7"] (by decide) (by decide) (by decide)

/-- Counterexample to C2 as stated: `["--sum", "1", "abc"]` contains
`--sum` and the valid integer token "1", yet `parse` fails on the
invalid token "abc" and the program prints no sum, exiting non-zero. -/
theorem example0_C2_cex :
    (parseInt "1").isSome = true ∧
    "--sum" ∈ (["--sum", "1", "abc"] : List String) ∧
    parse exampleConfig ["--sum", "1", "abc"] = .error (.conversionError "abc") ∧
    (parse exampleConfig ["--sum", "1", "abc"]).isOk = false ∧
    (mainRun ["--sum", "1", "abc"]).stdout = [line1, line2] ∧
    (mainRun ["--sum", "1", "abc"]).exitCode = 1 := by decide

/-- Claim C6 (confirmed): after any successful parse of the example
configuration, `get<T>` succeeds only at the declared static type: any
successful retrieval returns a value whose stored type tag is the
requested one; retrieving `"sum"` (declared as an `accumulation_fn<int>`)
as a plain integer fails with `TypeMismatchError`, while retrieving it at
its declared type succeeds. -/
theorem example0_C6 (argv : List String) (res : List (String × Value)) (coll : List Int)
    (h : parse exampleConfig argv = .ok res coll) (t : TypeTag) (v : Value) :
    (getTagged res t "sum" = .ok v → v.tag = t) ∧
    getTagged res .tInt "sum" = .error .typeMismatch ∧
    (∃ c : AccumChoice, getTagged res .tAccum "sum" = .ok (Value.accum c)) := by
  obtain ⟨hres, -, -⟩ := parse_ok_inv h
  refine ⟨fun hg => getTagged_ok_tag hg, ?_, ?_⟩
  · rw [hres]
    by_cases hk : countSum argv = 0
    · simp only [if_pos hk]
      rfl
    · simp only [if_neg hk]
      exact getTagged_replicate_int hk
  · rw [hres]
    by_cases hk : countSum argv = 0
    · exact ⟨.maxF, by simp only [if_pos hk]; rfl⟩
    · exact ⟨.plusF, by simp only [if_neg hk]; exact getTagged_replicate hk⟩

/-- Witness for C6 after the successful parse of `["4"]`. -/
theorem example0_C6_witness :
    (getTagged [("sum", Value.accum .maxF)] .tInt "sum" = .ok (Value.int 0) →
      (Value.int 0).tag = .tInt) ∧
    getTagged [("sum", Value.accum .maxF)] .tInt "sum" = .error .typeMismatch ∧
    (∃ c : AccumChoice,
      getTagged [("sum", Value.accum .maxF)] .tAccum "sum" = .ok (Value.accum c)) :=
  example0_C6 ["4"] [("sum", Value.accum .maxF)] [4] rfl .tInt (Value.int 0)

/-- Claim C7 (confirmed): after any successful parse, the recorded value
of the `--sum` option is exactly the `store_const` value (`std::plus`)
when the flag appeared in the argument vector, and exactly the
`set_default` value (the max lambda) when it did not — there is no third
outcome. -/
theorem example0_C7 (argv : List String) (res : List (String × Value)) (coll : List Int)
    (h : parse exampleConfig argv = .ok res coll) :
    lookupName "sum" res =
      some (if "--sum" ∈ argv then Value.accum .plusF else Value.accum .maxF) := by
  obtain ⟨hres, -, -⟩ := parse_ok_inv h
  by_cases hs : "--sum" ∈ argv
  · have hk : countSum argv ≠ 0 := fun h0 => (countSum_eq_zero_iff argv).mp h0 hs
    rw [hres]
    simp only [if_neg hk, if_pos hs, lookup_replicate]
  · have hk : countSum argv = 0 := (countSum_eq_zero_iff argv).mpr hs
    rw [hres]
    simp [hk, hs, lookupName]

/-- Witness for C7 after the successful parse of `["--sum", "2"]`. -/
theorem example0_C7_witness :
    lookupName "sum" [("sum", Value.accum .plusF)] =
      some (if "--sum" ∈ (["--sum", "2"] : List String)
            then Value.accum .plusF else Value.accum .maxF) :=
  example0_C7 ["--sum", "2"] [("sum", Value.accum .plusF)] [2] rfl

end Argparse

